import Mathlib

/-!
Shallow embedding of the core subsystems of a Snowflake REST client library:
the external-browser payload parser (`external_browser_payload.rs`), the
manual redirect-URL extraction (`auth/external_browser.rs`), the callback
listener handler (`external_browser_listener.rs`), the typed row decoder
(`row.rs`), and the query-executor creation / fetch-all logic (`query.rs`).

Rust machine integers are modelled as `Nat`/`Int` with explicit range checks
where the source checks them; fallible Rust code returning `Result` is
modelled with `Except`; Rust panics (out-of-bounds `Vec` indexing) are
modelled with an explicit `Panics` wrapper.
-/

namespace Snowflake

/-- Error taxonomy, from `error.rs` (only the variants reachable from the
embedded code paths). -/
inductive Error where
  | Communication (body : String)
  | Json (msg : String) (rawBody : String)
  | SessionExpired
  | NoPollingUrlAsyncQuery
  | UnsupportedFormat (format : String)
  | Decode (msg : String)
  | TimedOut
  | InvalidHeader
deriving DecidableEq, Repr

/-! ## Payload parser, from `external_browser_payload.rs` -/

/-- Rust `str::to_ascii_lowercase`. -/
def ascii_lower (s : String) : String := ⟨s.data.map Char.toLower⟩

/-- Rust `str::to_ascii_uppercase`. -/
def ascii_upper (s : String) : String := ⟨s.data.map Char.toUpper⟩

/-- One character of Rust `str::to_uppercase` (Unicode full uppercasing).
The mapping is exact on every character whose uppercase lands in the ASCII
range — the only characters that can influence a comparison against an
ASCII literal: the ASCII letters, `U+00DF` (sharp s → `SS`), `U+0131`
(dotless i → `I`), `U+017F` (long s → `S`), and the Latin ligatures
`U+FB00`–`U+FB06` (→ `FF`/`FI`/`FL`/`FFI`/`FFL`/`ST`/`ST`).  Every other
character's uppercase contains no ASCII at all, so it is modelled as
itself. -/
def rust_char_to_uppercase (c : Char) : List Char :=
  if c.toNat = 0xDF then ['S', 'S']
  else if c.toNat = 0x131 then ['I']
  else if c.toNat = 0x17F then ['S']
  else if c.toNat = 0xFB00 then ['F', 'F']
  else if c.toNat = 0xFB01 then ['F', 'I']
  else if c.toNat = 0xFB02 then ['F', 'L']
  else if c.toNat = 0xFB03 then ['F', 'F', 'I']
  else if c.toNat = 0xFB04 then ['F', 'F', 'L']
  else if c.toNat = 0xFB05 then ['S', 'T']
  else if c.toNat = 0xFB06 then ['S', 'T']
  else [c.toUpper]

/-- Rust `str::to_uppercase` (Unicode full uppercasing), character by
character. -/
def rust_to_uppercase (s : String) : String :=
  ⟨(s.data.map rust_char_to_uppercase).flatten⟩

/-- Rust `char::is_whitespace`: the Unicode White_Space property
(`U+0009`–`U+000D`, `U+0020`, `U+0085`, `U+00A0`, `U+1680`,
`U+2000`–`U+200A`, `U+2028`, `U+2029`, `U+202F`, `U+205F`, `U+3000`). -/
def rust_is_whitespace (c : Char) : Bool :=
  (0x09 ≤ c.toNat && c.toNat ≤ 0x0D) || c.toNat = 0x20 || c.toNat = 0x85
    || c.toNat = 0xA0 || c.toNat = 0x1680
    || (0x2000 ≤ c.toNat && c.toNat ≤ 0x200A)
    || c.toNat = 0x2028 || c.toNat = 0x2029 || c.toNat = 0x202F
    || c.toNat = 0x205F || c.toNat = 0x3000

/-- Rust `str::trim`: drop leading and trailing Unicode whitespace. -/
def rust_trim (s : String) : String :=
  ⟨((s.data.dropWhile rust_is_whitespace).reverse.dropWhile
      rust_is_whitespace).reverse⟩

/-- `ParsedTokenAndConsent`, from `external_browser_payload.rs`. -/
structure ParsedTokenAndConsent where
  token : Option String := none
  consent : Option Bool := none
deriving DecidableEq, Repr

/-- `parse_consent_value`: `value.trim().to_ascii_lowercase()` matched against
the literals `true` / `false`. -/
def parse_consent_value (value : String) : Option Bool :=
  match ascii_lower (rust_trim value) with
  | "true" => some true
  | "false" => some false
  | _ => none

/-- `accumulate_token_and_consent`: one fold step of the pair parser.
The key is ASCII-lowercased; a `token` pair is taken only when no token is
set yet and the value is non-empty; a `consent` pair overrides the current
consent only when it parses as a boolean literal. -/
def accumulate_token_and_consent (parsed : ParsedTokenAndConsent)
    (pair : String × String) : ParsedTokenAndConsent :=
  let key := ascii_lower pair.1
  if key = "token" then
    { token := if parsed.token = none ∧ pair.2 ≠ "" then some pair.2 else parsed.token,
      consent := parsed.consent }
  else if key = "consent" then
    { token := parsed.token,
      consent := (parse_consent_value pair.2).or parsed.consent }
  else
    parsed

/-- `parse_token_and_consent_from_pairs`: fold of
`accumulate_token_and_consent` over the pair sequence. -/
def parse_token_and_consent_from_pairs (pairs : List (String × String)) :
    ParsedTokenAndConsent :=
  pairs.foldl accumulate_token_and_consent {}

/-- Spec-side description of the token rule: the value of the first pair whose
key equals `token` ASCII-case-insensitively and whose value is non-empty. -/
def spec_first_token : List (String × String) → Option String
  | [] => none
  | (k, v) :: rest =>
    if ascii_lower k = "token" ∧ v ≠ "" then some v else spec_first_token rest

/-- Spec-side description of the consent rule: the boolean of the last pair
whose key equals `consent` ASCII-case-insensitively and whose value parses as
a boolean literal; invalid values never clear an earlier valid one. -/
def spec_last_consent : List (String × String) → Option Bool
  | [] => none
  | (k, v) :: rest =>
    (spec_last_consent rest).or
      (if ascii_lower k = "consent" then parse_consent_value v else none)

/-! ## Callback payload and URL extraction, from `auth/external_browser.rs` -/

/-- `CallbackPayload`, from `external_browser_listener.rs`. -/
structure CallbackPayload where
  token : String
  consent : Option Bool
deriving DecidableEq, Repr

/-- `parsed_to_payload`, from `external_browser_listener.rs`. -/
def parsed_to_payload (parsed : ParsedTokenAndConsent) : Option CallbackPayload :=
  parsed.token.map (fun token => { token := token, consent := parsed.consent })

/-- `extract_payload_from_url`, from `auth/external_browser.rs`, after URL
parsing: the query pairs and the optional fragment pairs are each run through
the pair parser, the query result is preferred via `Option::or`, and the
whole extraction fails when neither side yields a token. -/
def extract_payload_from_url (query : List (String × String))
    (fragment : Option (List (String × String))) : Option CallbackPayload :=
  let q := parse_token_and_consent_from_pairs query
  let f := (fragment.map parse_token_and_consent_from_pairs).getD {}
  (q.token.or f.token).map
    (fun token => { token := token, consent := q.consent.or f.consent })

/-- `payload_from_redirect_input`, from `auth/external_browser.rs`. -/
def payload_from_redirect_input (query : List (String × String))
    (fragment : Option (List (String × String))) : Except Error CallbackPayload :=
  match extract_payload_from_url query fragment with
  | some p => .ok p
  | none => .error (.Communication "Unable to extract token from redirected URL")

/-! ## Row decoding, from `row.rs` -/

/-- `SnowflakeColumnType`, from `row.rs`. -/
structure SnowflakeColumnType where
  snowflake_type : String
  nullable : Bool
  length : Option Int
  precision : Option Int
  scale : Option Int
deriving DecidableEq, Repr

/-- `SnowflakeRow`, from `row.rs`: cells, shared column types and the
upper-cased name-to-index map (modelled as an association list). -/
structure SnowflakeRow where
  row : List (Option String)
  column_types : List SnowflakeColumnType
  column_indices : List (String × Nat)
deriving DecidableEq, Repr

/-- Result of Rust code that may panic (e.g. out-of-bounds `Vec` indexing). -/
inductive Panics (α : Type) where
  | panicked (msg : String)
  | value (a : α)
deriving DecidableEq, Repr

/-- Rust `Vec` indexing `v[i]`: panics when the index is out of bounds. -/
def vec_index {α : Type} (l : List α) (i : Nat) : Panics α :=
  match l[i]? with
  | some a => .value a
  | none => .panicked "index out of bounds"

/-- `HashMap::get` on the name-to-index map, modelled on an association
list (the map holds at most one entry per key). -/
def assoc_get (l : List (String × Nat)) (key : String) : Option Nat :=
  (l.find? (fun p => p.1 == key)).map (fun p => p.2)

/-- `unwrap` helper from `row.rs`: a null cell yields a `Decode` error. -/
def rust_unwrap (value : Option String) : Except Error String :=
  match value with
  | some v => .ok v
  | none => .error (.Decode "value is null")

/-- Digit run accumulator for the standard library integer parser. -/
def parse_digits_aux : List Char → Nat → Option Nat
  | [], acc => some acc
  | c :: cs, acc =>
    if c.isDigit then parse_digits_aux cs (acc * 10 + (c.toNat - 48)) else none

/-- Parse a non-empty run of ASCII digits. -/
def parse_digits (cs : List Char) : Option Nat :=
  match cs with
  | [] => none
  | _ => parse_digits_aux cs 0

/-- Rust `str::parse::<uN>`: optional `+` sign, then digits; rejects values
above the type maximum (overflow is a parse error). -/
def rust_parse_unsigned (maxVal : Nat) (s : String) : Option Nat :=
  let cs := match s.data with
    | '+' :: rest => rest
    | cs => cs
  (parse_digits cs).bind (fun n => if n ≤ maxVal then some n else none)

/-- Rust `str::parse::<iN>`: optional `+`/`-` sign, then digits; rejects
values outside the type range (overflow is a parse error). -/
def rust_parse_signed (minVal maxVal : Int) (s : String) : Option Int :=
  match s.data with
  | '+' :: rest =>
    (parse_digits rest).bind
      (fun n => if (n : Int) ≤ maxVal then some (n : Int) else none)
  | '-' :: rest =>
    (parse_digits rest).bind
      (fun n => if minVal ≤ -(n : Int) then some (-(n : Int)) else none)
  | cs =>
    (parse_digits cs).bind
      (fun n => if (n : Int) ≤ maxVal then some (n : Int) else none)

def u64_max : Nat := 2 ^ 64 - 1
def i64_min : Int := -(2 ^ 63)
def i64_max : Int := 2 ^ 63 - 1
def i32_min : Int := -(2 ^ 31)
def i32_max : Int := 2 ^ 31 - 1
def i8_min : Int := -(2 ^ 7)
def i8_max : Int := 2 ^ 7 - 1

/-- The decode target types: the `SnowflakeDecode` impls of `row.rs` whose
semantics is integer/string/boolean (the temporal, float and JSON impls
live outside this embedding). -/
inductive DTarget where
  | u64T
  | i64T
  | i32T
  | i8T
  | stringT
  | boolT
  | optionT (t : DTarget)
deriving DecidableEq, Repr

/-- Decoded values. -/
inductive DValue where
  | natV (n : Nat)
  | intV (n : Int)
  | stringV (s : String)
  | boolV (b : Bool)
  | noneV
  | someV (v : DValue)
deriving DecidableEq, Repr

/-- `impl SnowflakeDecode for bool`, from `row.rs`: Unicode-upper-case the
cell (`value.to_uppercase()`) and accept `1`/`TRUE` as true and `0`/`FALSE`
as false, anything else is a `Decode` error. -/
def bool_try_decode (value : Option String) : Except Error Bool :=
  match rust_unwrap value with
  | .error e => .error e
  | .ok v =>
    match rust_to_uppercase v with
    | "1" | "TRUE" => .ok true
    | "0" | "FALSE" => .ok false
    | _ => .error (.Decode (s!"\x27{v}\x27 is not bool"))

/-- `SnowflakeDecode::try_decode` dispatch over the modelled target types,
from `row.rs`. `Option<T>` maps a null cell to `None` and otherwise
delegates to `T`. -/
def try_decode : DTarget → Option String → SnowflakeColumnType → Except Error DValue
  | .u64T, value, _ =>
    (rust_unwrap value).bind fun v =>
      match rust_parse_unsigned u64_max v with
      | some n => .ok (.natV n)
      | none => .error (.Decode (s!"\x27{v}\x27 is not u64"))
  | .i64T, value, _ =>
    (rust_unwrap value).bind fun v =>
      match rust_parse_signed i64_min i64_max v with
      | some n => .ok (.intV n)
      | none => .error (.Decode (s!"\x27{v}\x27 is not i64"))
  | .i32T, value, _ =>
    (rust_unwrap value).bind fun v =>
      match rust_parse_signed i32_min i32_max v with
      | some n => .ok (.intV n)
      | none => .error (.Decode (s!"\x27{v}\x27 is not i32"))
  | .i8T, value, _ =>
    (rust_unwrap value).bind fun v =>
      match rust_parse_signed i8_min i8_max v with
      | some n => .ok (.intV n)
      | none => .error (.Decode (s!"\x27{v}\x27 is not i8"))
  | .stringT, value, _ =>
    (rust_unwrap value).map .stringV
  | .boolT, value, _ =>
    (bool_try_decode value).map .boolV
  | .optionT t, value, ty =>
    match value with
    | none => .ok .noneV
    | some _ => (try_decode t value ty).map .someV

/-- `SnowflakeRow::get`, from `row.rs`: upper-case the queried name, look it
up in the index map (a miss is a `Decode` error), then index the column-type
and cell vectors (plain `Vec` indexing, which panics out of bounds) and
decode. -/
def SnowflakeRow.get (r : SnowflakeRow) (column_name : String) (t : DTarget) :
    Panics (Except Error DValue) :=
  match assoc_get r.column_indices (ascii_upper column_name) with
  | none => .value (.error (.Decode (s!"column not found: {column_name}")))
  | some idx =>
    match vec_index r.column_types idx with
    | .panicked m => .panicked m
    | .value ty =>
      match vec_index r.row idx with
      | .panicked m => .panicked m
      | .value cell => .value (try_decode t cell ty)

/-- `SnowflakeRow::at`, from `row.rs`: plain `Vec` indexing of the
column-type and cell vectors followed by decoding. -/
def SnowflakeRow.atIdx (r : SnowflakeRow) (column_index : Nat) (t : DTarget) :
    Panics (Except Error DValue) :=
  match vec_index r.column_types column_index with
  | .panicked m => .panicked m
  | .value ty =>
    match vec_index r.row column_index with
    | .panicked m => .panicked m
    | .value cell => .value (try_decode t cell ty)

/-- A row whose index map only points inside both vectors. -/
def SnowflakeRow.wellIndexed (r : SnowflakeRow) : Prop :=
  ∀ p ∈ r.column_indices, p.2 < r.column_types.length ∧ p.2 < r.row.length

instance (r : SnowflakeRow) : Decidable r.wellIndexed := by
  unfold SnowflakeRow.wellIndexed
  infer_instance

/-- Sample row used to instantiate the row-decoding theorems. -/
def sample_row : SnowflakeRow :=
  { row := [some "1"],
    column_types := [{ snowflake_type := "fixed", nullable := false,
                       length := none, precision := some 38, scale := some 0 }],
    column_indices := [("A", 0)] }

/-! ## JSON model and response envelope, from `query.rs`

A small JSON value type together with deserializers that mirror the serde
derives of `query.rs` (camelCase field names, `Option` fields treated as
`None` when missing or null, unknown fields ignored). -/

inductive Json where
  | null
  | bool (b : Bool)
  | str (s : String)
  | num (n : Int)
  | arr (elems : List Json)
  | obj (fields : List (String × Json))

/-- First field with the given name in a JSON object. -/
def json_lookup (fields : List (String × Json)) (key : String) : Option Json :=
  (fields.find? (fun p => p.1 == key)).map (fun p => p.2)

def as_string : Json → Except String String
  | .str s => .ok s
  | _ => .error "expected a string"

def as_bool : Json → Except String Bool
  | .bool b => .ok b
  | _ => .error "expected a boolean"

def as_int : Json → Except String Int
  | .num n => .ok n
  | _ => .error "expected a number"

/-- serde `Option<T>` field: missing or null means `None`. -/
def opt_field {α : Type} (fields : List (String × Json)) (key : String)
    (p : Json → Except String α) : Except String (Option α) :=
  match json_lookup fields key with
  | none => .ok none
  | some .null => .ok none
  | some j => (p j).map some

/-- serde required field. -/
def req_field {α : Type} (fields : List (String × Json)) (key : String)
    (p : Json → Except String α) : Except String α :=
  match json_lookup fields key with
  | none => .error (s!"missing field {key}")
  | some j => p j

def as_list {α : Type} (p : Json → Except String α) : Json → Except String (List α)
  | .arr xs => xs.mapM p
  | _ => .error "expected an array"

/-- serde `Option<String>` inside a rowset cell: null is a null cell. -/
def as_opt_string : Json → Except String (Option String)
  | .null => .ok none
  | .str s => .ok (some s)
  | _ => .error "expected a string or null"

/-- serde `HashMap<String, String>`. -/
def as_string_map : Json → Except String (List (String × String))
  | .obj fields => fields.mapM (fun p => (as_string p.2).map (fun v => (p.1, v)))
  | _ => .error "expected an object"

/-- `RawQueryResponseChunk`, from `query.rs`. -/
structure RawQueryResponseChunk where
  url : String
  row_count : Int
  uncompressed_size : Int
  compressed_size : Int
deriving DecidableEq, Repr

def chunk_from_json : Json → Except String RawQueryResponseChunk
  | .obj fields => do
    let url ← req_field fields "url" as_string
    let row_count ← req_field fields "rowCount" as_int
    let uncompressed_size ← req_field fields "uncompressedSize" as_int
    let compressed_size ← req_field fields "compressedSize" as_int
    pure { url := url, row_count := row_count,
           uncompressed_size := uncompressed_size,
           compressed_size := compressed_size }
  | _ => .error "expected an object"

/-- `RawQueryResponseRowType`, from `query.rs`. -/
structure RawQueryResponseRowType where
  database : String
  name : String
  nullable : Bool
  scale : Option Int
  byte_length : Option Int
  length : Option Int
  schema : String
  table : String
  precision : Option Int
  data_type : String
deriving DecidableEq, Repr

def row_type_from_json : Json → Except String RawQueryResponseRowType
  | .obj fields => do
    let database ← req_field fields "database" as_string
    let name ← req_field fields "name" as_string
    let nullable ← req_field fields "nullable" as_bool
    let scale ← opt_field fields "scale" as_int
    let byte_length ← opt_field fields "byteLength" as_int
    let length ← opt_field fields "length" as_int
    let schema ← req_field fields "schema" as_string
    let table ← req_field fields "table" as_string
    let precision ← opt_field fields "precision" as_int
    let data_type ← req_field fields "type" as_string
    pure { database := database, name := name, nullable := nullable,
           scale := scale, byte_length := byte_length, length := length,
           schema := schema, table := table, precision := precision,
           data_type := data_type }
  | _ => .error "expected an object"

/-- `RawQueryResponseParameter`, from `query.rs`. -/
structure RawQueryResponseParameter where
  name : String
  value : Json

def parameter_from_json : Json → Except String RawQueryResponseParameter
  | .obj fields => do
    let name ← req_field fields "name" as_string
    let value ← req_field fields "value" pure
    pure { name := name, value := value }
  | _ => .error "expected an object"

/-- `RawQueryResponse`, from `query.rs`. -/
structure RawQueryResponse where
  parameters : Option (List RawQueryResponseParameter)
  query_id : String
  get_result_url : Option String
  returned : Option Int
  total : Option Int
  row_set : Option (List (List (Option String)))
  row_types : Option (List RawQueryResponseRowType)
  chunk_headers : Option (List (String × String))
  qrmk : Option String
  chunks : Option (List RawQueryResponseChunk)
  query_result_format : Option String

def raw_query_response_from_json : Json → Except String RawQueryResponse
  | .obj fields => do
    let parameters ← opt_field fields "parameters" (as_list parameter_from_json)
    let query_id ← req_field fields "queryId" as_string
    let get_result_url ← opt_field fields "getResultUrl" as_string
    let returned ← opt_field fields "returned" as_int
    let total ← opt_field fields "total" as_int
    let row_set ← opt_field fields "rowset" (as_list (as_list as_opt_string))
    let row_types ← opt_field fields "rowtype" (as_list row_type_from_json)
    let chunk_headers ← opt_field fields "chunkHeaders" as_string_map
    let qrmk ← opt_field fields "qrmk" as_string
    let chunks ← opt_field fields "chunks" (as_list chunk_from_json)
    let query_result_format ← opt_field fields "queryResultFormat" as_string
    pure { parameters := parameters, query_id := query_id,
           get_result_url := get_result_url, returned := returned,
           total := total, row_set := row_set, row_types := row_types,
           chunk_headers := chunk_headers, qrmk := qrmk, chunks := chunks,
           query_result_format := query_result_format }
  | _ => .error "expected an object"

/-- `SnowflakeResponse`, from `query.rs`: the envelope; `data` may be null
(e.g. when the session has expired with code 390112). -/
structure SnowflakeResponse where
  data : Option RawQueryResponse
  message : Option String
  success : Bool
  code : Option String

def snowflake_response_from_json : Json → Except String SnowflakeResponse
  | .obj fields => do
    let data ← opt_field fields "data" raw_query_response_from_json
    let message ← opt_field fields "message" as_string
    let success ← req_field fields "success" as_bool
    let code ← opt_field fields "code" as_string
    pure { data := data, message := message, success := success, code := code }
  | _ => .error "expected an object"

/-! ## Query executor creation, from `query.rs` -/

def SESSION_EXPIRED : String := "390112"
def QUERY_IN_PROGRESS_CODE : String := "333333"
def QUERY_IN_PROGRESS_ASYNC_CODE : String := "333334"

/-- `HeaderName` validity: the `http` crate's token character set —
alphanumerics and `! # $ % & \x27 * + - . ^ _ \x60 | ~`. -/
def valid_header_name (s : String) : Bool :=
  ¬ s.isEmpty && s.data.all (fun c =>
    c.isAlphanum || c.toNat = 0x21 || c.toNat = 0x23 || c.toNat = 0x24
      || c.toNat = 0x25 || c.toNat = 0x26 || c.toNat = 0x27 || c.toNat = 0x2A
      || c.toNat = 0x2B || c.toNat = 0x2D || c.toNat = 0x2E || c.toNat = 0x5E
      || c.toNat = 0x5F || c.toNat = 0x60 || c.toNat = 0x7C || c.toNat = 0x7E)

/-- `HeaderValue` validity: visible ASCII, tab, and obs-text (every UTF-8
byte of a character above `U+007F` lies in `0x80`–`0xFF`, which
`HeaderValue::from_bytes` permits); `DEL` and the other control bytes are
rejected. -/
def valid_header_value (s : String) : Bool :=
  s.data.all (fun c =>
    c = '\t' || (0x20 ≤ c.toNat && c.toNat ≤ 0x7E) || 0x80 ≤ c.toNat)

/-- `HeaderMap::try_from(&HashMap<String, String>)`: fails with
`InvalidHeader` when any name or value is malformed. -/
def header_map_try_from (headers : List (String × String)) :
    Except Error (List (String × String)) :=
  if headers.all (fun p => valid_header_name p.1 && valid_header_value p.2)
  then .ok headers else .error .InvalidHeader

/-- `HashMap` insertion: a later entry with the same key overwrites. -/
def hashmap_insert (m : List (String × Nat)) (k : String) (v : Nat) :
    List (String × Nat) :=
  if m.any (fun p => p.1 == k) then
    m.map (fun p => if p.1 == k then (k, v) else p)
  else
    m ++ [(k, v)]

/-- The name-to-index map built in `QueryExecutor::create`: names are
upper-cased and collected into a `HashMap`. -/
def build_column_indices (row_types : List RawQueryResponseRowType) :
    List (String × Nat) :=
  row_types.enum.foldl (fun m p => hashmap_insert m (ascii_upper p.2.name) p.1) []

/-- Column metadata conversion in `QueryExecutor::create`. -/
def to_column_type (rt : RawQueryResponseRowType) : SnowflakeColumnType :=
  { snowflake_type := rt.data_type, nullable := rt.nullable,
    length := rt.length, precision := rt.precision, scale := rt.scale }

/-- Executor state assembled by `QueryExecutor::create` on success. -/
structure ExecutorInit where
  qrmk : String
  chunks : List RawQueryResponseChunk
  chunk_headers : List (String × String)
  column_types : List SnowflakeColumnType
  column_indices : List (String × Nat)
  row_set : List (List (Option String))
deriving DecidableEq, Repr

/-- Outcome of `QueryExecutor::create` after the envelope has been parsed:
either the executor is ready, or creation fails, or the code enters the
async polling loop against `getResultUrl`. -/
inductive CreateOutcome where
  | pollsAsync (result_url : String)
  | failure (e : Error)
  | ready (init : ExecutorInit)
deriving DecidableEq, Repr

/-- The success tail of `QueryExecutor::create`: require `rowtype` and
`rowset`, default `qrmk`/`chunks`/`chunkHeaders`, build the column metadata
and the upper-cased name-to-index map. -/
def query_executor_build (response_data : RawQueryResponse) : CreateOutcome :=
  match response_data.row_types with
  | none =>
    .failure (.UnsupportedFormat "the response doesn\x27t contain \x27rowtype\x27")
  | some row_types =>
    match response_data.row_set with
    | none =>
      .failure (.UnsupportedFormat "the response doesn\x27t contain \x27rowset\x27")
    | some row_set =>
      let qrmk := response_data.qrmk.getD ""
      let chunks := response_data.chunks.getD []
      let column_indices := build_column_indices row_types
      let column_types := row_types.map to_column_type
      match header_map_try_from (response_data.chunk_headers.getD []) with
      | .error e => .failure e
      | .ok chunk_headers =>
        .ready { qrmk := qrmk, chunks := chunks, chunk_headers := chunk_headers,
                 column_types := column_types, column_indices := column_indices,
                 row_set := row_set }

/-- The checks of `QueryExecutor::create` that run on a response that is not
(or no longer) in progress: session expiry (code 390112) is checked before
the `success` flag, then the data payload is required and its result format
must be absent or `json`. -/
def query_executor_create_finish (response : SnowflakeResponse) : CreateOutcome :=
  if response.code = some SESSION_EXPIRED then
    .failure .SessionExpired
  else if response.success = false then
    .failure (.Communication (response.message.getD ""))
  else
    match response.data with
    | none => .failure (.Json "missing data field in query response" "")
    | some response_data =>
      match response_data.query_result_format with
      | some format =>
        if format = "json" then query_executor_build response_data
        else .failure (.UnsupportedFormat format)
      | none => query_executor_build response_data

/-- `QueryExecutor::create` on a parsed envelope: when the code is one of the
in-progress codes, the data payload is required (its absence is a `Json`
error) and `getResultUrl` decides between entering the polling loop and
`NoPollingUrlAsyncQuery`; otherwise fall through to the remaining checks. -/
def query_executor_create_step (response : SnowflakeResponse) : CreateOutcome :=
  if response.code = some QUERY_IN_PROGRESS_ASYNC_CODE
      ∨ response.code = some QUERY_IN_PROGRESS_CODE then
    match response.data with
    | none => .failure (.Json "missing data field in async query response" "")
    | some data =>
      match data.get_result_url with
      | some result_url => .pollsAsync result_url
      | none => .failure .NoPollingUrlAsyncQuery
  else
    query_executor_create_finish response

/-- The session-expired envelope of the spec scenario S6 (and the unit test
in `query.rs`): `{"data":null,"code":"390112","message":...,"success":false,
"headers":null}`. -/
def session_expired_envelope : Json :=
  .obj [("data", .null), ("code", .str "390112"),
        ("message", .str "Your session has expired. Please login again."),
        ("success", .bool false), ("headers", .null)]

/-- An in-progress envelope whose `data` payload is null. -/
def in_progress_null_data_envelope : Json :=
  .obj [("data", .null), ("code", .str "333333"),
        ("message", .str "query is in progress"), ("success", .bool false)]

/-- A concrete `RawQueryResponse` with no `getResultUrl`. -/
def sample_data_without_result_url : RawQueryResponse :=
  { parameters := none, query_id := "qid-1", get_result_url := none,
    returned := none, total := none, row_set := none, row_types := none,
    chunk_headers := none, qrmk := none, chunks := none,
    query_result_format := none }

/-- A concrete in-progress envelope whose data is present but carries no
polling URL. -/
def sample_in_progress_response : SnowflakeResponse :=
  { data := some sample_data_without_result_url, message := some "in progress",
    success := false, code := some "333333" }

/-! ## `fetch_all_with_limit`, from `query.rs`

The download fan-out is modelled as a small-step machine: one task per
chunk (spawned in `Vec::pop` order, i.e. the reverse of the server-provided
chunk list), a counting semaphore, and two step kinds — a queued task
acquiring a permit before its HTTP download, and a running task finishing
its download and dropping the permit.  The interleaving of acquisitions and
completions is chosen by an arbitrary action list. -/

/-- A raw row as carried by a chunk download. -/
abbrev RawRow := List (Option String)

/-- The rows of one downloaded chunk. -/
abbrev ChunkRows := List RawRow

/-- Rust `usize::clamp` (the source always calls it with `lo = 1 ≤ hi`). -/
def rust_clamp (v lo hi : Nat) : Nat := min (max v lo) hi

/-- The permit count of the semaphore created by `fetch_all_with_limit`:
`max_concurrency` values below 1 are raised to 1, and the chunk count is
clamped into `[1, max_concurrency]`. -/
def fetch_semaphore_permits (chunk_count max_concurrency : Nat) : Nat :=
  rust_clamp chunk_count 1 (max max_concurrency 1)

/-- Task spawn order: `while let Some(chunk) = chunks.pop()` walks the chunk
vector from its end. -/
def spawn_order (chunks : List RawQueryResponseChunk) : List RawQueryResponseChunk :=
  chunks.reverse

/-- Lifecycle of one spawned download task. -/
inductive TaskPhase (ρ : Type) where
  | queued
  | running
  | done (result : ρ)
deriving DecidableEq, Repr

def phase_is_running {ρ : Type} : TaskPhase ρ → Bool
  | .running => true
  | _ => false

def phase_is_done {ρ : Type} : TaskPhase ρ → Bool
  | .done _ => true
  | _ => false

/-- The rows a finished task contributes when its join handle is awaited. -/
def task_rows : TaskPhase ChunkRows → ChunkRows
  | .done r => r
  | _ => []

/-- State of the fan-out: free semaphore permits and one phase per task, in
spawn order. -/
structure FetchAllState where
  sem : Nat
  tasks : List (TaskPhase ChunkRows)
deriving DecidableEq, Repr

/-- Scheduler actions: task `i` acquires a permit, or task `i` finishes its
download (releasing its permit). -/
inductive FetchAction where
  | acquire (i : Nat)
  | finish (i : Nat)
deriving DecidableEq, Repr

/-- One scheduler step.  A task may start downloading only from the queued
phase and only when a permit is free; it finishes only from the running
phase, recording the (deterministic) download result for its chunk. -/
def fetch_step (spawned : List RawQueryResponseChunk)
    (download : RawQueryResponseChunk → ChunkRows)
    (s : FetchAllState) : FetchAction → Option FetchAllState
  | .acquire i =>
    match s.tasks[i]? with
    | some .queued =>
      if 0 < s.sem then some { sem := s.sem - 1, tasks := s.tasks.set i .running }
      else none
    | _ => none
  | .finish i =>
    match s.tasks[i]?, spawned[i]? with
    | some .running, some chunk =>
      some { sem := s.sem + 1, tasks := s.tasks.set i (.done (download chunk)) }
    | _, _ => none

/-- Run a list of scheduler actions. -/
def fetch_run (spawned : List RawQueryResponseChunk)
    (download : RawQueryResponseChunk → ChunkRows)
    (s : FetchAllState) : List FetchAction → Option FetchAllState
  | [] => some s
  | a :: rest =>
    match fetch_step spawned download s a with
    | some s2 => fetch_run spawned download s2 rest
    | none => none

/-- Initial state: all permits free, every task queued. -/
def fetch_init (chunk_count permits : Nat) : FetchAllState :=
  { sem := permits, tasks := List.replicate chunk_count .queued }

/-- Number of downloads currently in flight. -/
def in_flight (s : FetchAllState) : Nat := s.tasks.countP phase_is_running

/-- `convert_row`, from `query.rs`: wrap a raw row with the shared column
metadata. -/
def convert_row (column_types : List SnowflakeColumnType)
    (column_indices : List (String × Nat)) (raw : RawRow) : SnowflakeRow :=
  { row := raw, column_types := column_types, column_indices := column_indices }

/-- The row list assembled by `fetch_all_with_limit`: the initial rowset is
drained first, then the join handles are awaited in spawn order and each
task's rows are appended in that order. -/
def fetch_all_rows (column_types : List SnowflakeColumnType)
    (column_indices : List (String × Nat)) (initial_row_set : List RawRow)
    (s : FetchAllState) : List SnowflakeRow :=
  (initial_row_set ++ (s.tasks.map task_rows).flatten).map
    (convert_row column_types column_indices)

/-- Two sample chunks for instantiating the fetch-all theorems. -/
def sample_chunks : List RawQueryResponseChunk :=
  [{ url := "https://chunks.example/0", row_count := 1,
     uncompressed_size := 10, compressed_size := 5 },
   { url := "https://chunks.example/1", row_count := 1,
     uncompressed_size := 12, compressed_size := 6 }]

/-- A sample deterministic download collaborator: one row holding the url. -/
def sample_download (c : RawQueryResponseChunk) : ChunkRows := [[some c.url]]

/-- A sample complete schedule for `sample_chunks` under limit 1. -/
def sample_actions : List FetchAction :=
  [.acquire 0, .finish 0, .acquire 1, .finish 1]

/-! ## Callback listener, from `external_browser_listener.rs`

The HTTP handler is modelled as a state transformer over the listener's
shared state: the validated Origin (an async mutex in the source) and the
watch channel value (`watch::Sender::send` replaces the stored value; the
receivers observe the latest value). -/

/-- A POST body: either bytes that deserialize as the serde `TokenPayload`
JSON struct, or bytes handled by the `x-www-form-urlencoded` fallback. -/
inductive PostBody where
  | jsonBody (token : Option String) (consent : Option Bool)
  | formBody (pairs : List (String × String))
deriving DecidableEq, Repr

/-- `extract_payload_from_query`, from `external_browser_listener.rs`. -/
def extract_payload_from_query (query : Option (List (String × String))) :
    Option CallbackPayload :=
  (query.map parse_token_and_consent_from_pairs).bind parsed_to_payload

/-- `extract_payload_from_body`, from `external_browser_listener.rs`: JSON
`{token, consent}` first (a missing token makes the payload `None`), then
the form-encoded fallback through the pair parser. -/
def extract_payload_from_body : PostBody → Option CallbackPayload
  | .jsonBody token consent => token.map (fun t => { token := t, consent := consent })
  | .formBody pairs => parsed_to_payload (parse_token_and_consent_from_pairs pairs)

/-- One inbound request as seen by `handler`. -/
inductive ListenerRequest where
  | optionsReq (origin : Option String) (access_control_request_headers : Option String)
  | getReq (query : Option (List (String × String)))
  | postReq (body : PostBody)
  | otherReq
deriving DecidableEq, Repr

/-- A response: status, headers in emission order, body. -/
structure HttpResponse where
  status : Nat
  headers : List (String × String)
  body : String
deriving DecidableEq, Repr

/-- The listener's shared state: the validated Origin stored by a successful
OPTIONS preflight, and the watch channel value. -/
structure ListenerState where
  validated_origin : Option String
  channel : Option CallbackPayload
deriving DecidableEq, Repr

/-- `origin_allowed_value`: ASCII-case-insensitive equality. -/
def origin_allowed_value (origin expected : String) : Bool :=
  ascii_lower origin == ascii_lower expected

def forbidden_response : HttpResponse :=
  { status := 403, headers := [], body := "origin not allowed" }

def method_not_allowed_response : HttpResponse :=
  { status := 405, headers := [], body := "method not allowed" }

/-- `preflight_cors_response` plus the extra headers added at the OPTIONS
call site. -/
def preflight_response (allowed_origin allow_headers : String) : HttpResponse :=
  { status := 200,
    headers := [("Access-Control-Allow-Origin", allowed_origin),
                ("Access-Control-Allow-Methods", "POST, GET"),
                ("Access-Control-Allow-Headers", allow_headers),
                ("Access-Control-Max-Age", "86400"),
                ("Vary", "Accept-Encoding, Origin"),
                ("Content-Length", "0")],
    body := "" }

/-- `serde_json::json!({"consent": consent}).to_string()`. -/
def consent_json_body (consent : Bool) : String :=
  "\x7b\"consent\":" ++ (if consent then "true" else "false") ++ "\x7d"

/-- The fixed part of the HTML close-window page before the application
line (the source template is a raw string, so its `\"` sequences are a
literal backslash followed by a quote). -/
def html_front : String :=
  "<!DOCTYPE html><html><head><meta charset=\\\"UTF-8\\\"/>\n" ++
  "<link rel=\\\"icon\\\" href=\\\"data:,\\\">\n" ++
  "<title>SAML Response for Snowflake</title></head>\n<body>\n" ++
  "Your identity was confirmed and propagated to Snowflake.\n"

/-- The fixed part of the HTML close-window page after the application line. -/
def html_back : String :=
  "You can close this window now and go back where you started from.\n</body></html>"

/-- The optional `Client application: <name>.` line. -/
def app_line (application : Option String) : String :=
  match application with
  | some app => if rust_trim app = "" then "" else "Client application: " ++ rust_trim app ++ ".\n"
  | none => ""

/-- The HTML close-window page body. -/
def html_close_body (application : Option String) : String :=
  html_front ++ app_line application ++ html_back

/-- The plain-text 200 returned when no payload was extracted. -/
def no_token_response : HttpResponse :=
  { status := 200,
    headers := [("Content-Type", "text/plain"), ("Content-Length", "17")],
    body := "no token provided" }

/-- `ok_callback_response`, from `external_browser_listener.rs`: the
no-payload rule comes first; with a payload, a stored validated Origin
selects the consent-only JSON body (and the CORS headers), otherwise the
HTML close-window page. -/
def ok_callback_response (payload : Option CallbackPayload)
    (stored_origin : Option String) (application : Option String) : HttpResponse :=
  match payload with
  | none => no_token_response
  | some p =>
    let cors_mode := stored_origin.isSome
    let body :=
      if cors_mode then consent_json_body (p.consent.getD true)
      else html_close_body application
    let base_headers := [("Content-Type", "text/html"),
                         ("Content-Length", toString body.utf8ByteSize)]
    let headers :=
      match stored_origin with
      | some origin =>
        base_headers ++ [("Access-Control-Allow-Origin", origin),
                         ("Vary", "Accept-Encoding, Origin")]
      | none => base_headers
    { status := 200, headers := headers, body := body }

/-- `handler`, from `external_browser_listener.rs`, as a transformer of the
listener's shared state.  GET/POST publish any extracted payload to the
watch channel with `send` (which replaces the stored value) and respond via
`ok_callback_response`. -/
def handler (expected_origin : String) (application : Option String)
    (st : ListenerState) (req : ListenerRequest) : ListenerState × HttpResponse :=
  match req with
  | .optionsReq origin req_headers =>
    let allowed_origin := origin.filter (fun o => origin_allowed_value o expected_origin)
    match allowed_origin with
    | none => (st, forbidden_response)
    | some ao =>
      let allow_headers := req_headers.getD "Content-Type, Origin"
      ({ st with validated_origin := some ao }, preflight_response ao allow_headers)
  | .getReq query =>
    let payload := extract_payload_from_query query
    let st2 :=
      match payload with
      | some p => { st with channel := some p }
      | none => st
    (st2, ok_callback_response payload st2.validated_origin application)
  | .postReq body =>
    let payload := extract_payload_from_body body
    let st2 :=
      match payload with
      | some p => { st with channel := some p }
      | none => st
    (st2, ok_callback_response payload st2.validated_origin application)
  | .otherReq => (st, method_not_allowed_response)

/-- The payload a request publishes to the watch channel, if any. -/
def request_payload : ListenerRequest → Option CallbackPayload
  | .getReq query => extract_payload_from_query query
  | .postReq body => extract_payload_from_body body
  | _ => none

/-- Sequential processing of requests by one listener (watch channel writes
are serialized by the channel). -/
def run_requests (expected_origin : String) (application : Option String)
    (st : ListenerState) : List ListenerRequest → ListenerState
  | [] => st
  | r :: rest =>
    run_requests expected_origin application
      (handler expected_origin application st r).1 rest

/-- The payloads a request sequence publishes, in order. -/
def published_payloads (reqs : List ListenerRequest) : List CallbackPayload :=
  reqs.filterMap request_payload

/-- Lookup of a response header by name. -/
def header_lookup (r : HttpResponse) (name : String) : Option String :=
  (r.headers.find? (fun p => p.1 == name)).map (fun p => p.2)

/-! ## Theorems -/

/-- The fold underlying the pair parser, from an arbitrary accumulator:
the token is the accumulator's token or else the first non-empty token
value of the remaining pairs, and the consent is the last valid consent of
the remaining pairs or else the accumulator's consent. -/
theorem foldl_accumulate_eq (pairs : List (String × String))
    (acc : ParsedTokenAndConsent) :
    pairs.foldl accumulate_token_and_consent acc =
      { token := acc.token.or (spec_first_token pairs),
        consent := (spec_last_consent pairs).or acc.consent } := by
  induction pairs generalizing acc with
  | nil =>
    simp [spec_first_token, spec_last_consent]
  | cons p rest ih =>
    obtain ⟨k, v⟩ := p
    rw [List.foldl_cons, ih]
    by_cases hk : ascii_lower k = "token"
    · have hk2 : ¬ ascii_lower k = "consent" := by
        rw [hk]; decide
      by_cases ht : acc.token = none ∧ v ≠ ""
      · simp only [accumulate_token_and_consent, spec_first_token,
          spec_last_consent, hk, hk2, ht, if_true, if_false, if_pos,
          ite_true, ite_false]
        simp [ht.1, hk, ht.2]
      · simp only [accumulate_token_and_consent, spec_first_token,
          spec_last_consent, hk, hk2]
        rcases Decidable.not_and_iff_or_not.mp ht with h1 | h2
        · have hsome : ∃ t, acc.token = some t := by
            cases hacc : acc.token with
            | none => exact absurd hacc h1
            | some t => exact ⟨t, rfl⟩
          obtain ⟨t, hsome⟩ := hsome
          simp [ht, hsome, if_neg, Option.or_some]
        · have hv : v = "" := by
            by_contra hcon
            exact h2 hcon
          simp [ht, hv]
    · by_cases hc : ascii_lower k = "consent"
      · simp only [accumulate_token_and_consent, spec_first_token,
          spec_last_consent, hk, hc, ite_true, ite_false]
        have : ¬ (ascii_lower k = "token" ∧ v ≠ "") := fun h => hk h.1
        simp [this, Option.or_assoc]
      · simp only [accumulate_token_and_consent, spec_first_token,
          spec_last_consent, hk, hc, ite_false]
        have : ¬ (ascii_lower k = "token" ∧ v ≠ "") := fun h => hk h.1
        simp [this]

/-- C6: the pair parser returns as token the value of the first pair whose
key equals `token` ASCII-case-insensitively and whose value is non-empty
(`none` when there is no such pair; empty values and later matches are
ignored), and as consent the boolean of the last pair whose key equals
`consent` ASCII-case-insensitively and whose trimmed value is a boolean
literal (`none` when there is none; invalid consent values never clear a
previously set value); pairs with any other key leave the result
unchanged. -/
theorem parse_pairs_token_first_consent_last (pairs : List (String × String)) :
    parse_token_and_consent_from_pairs pairs =
      { token := spec_first_token pairs, consent := spec_last_consent pairs } := by
  have h := foldl_accumulate_eq pairs {}
  simpa [parse_token_and_consent_from_pairs] using h

/-- The consent parser trims Unicode whitespace as `str::trim` does: a
no-break space (`U+00A0`) before `false` is trimmed away. -/
theorem parse_consent_value_trims_unicode_whitespace :
    parse_consent_value "\u00A0false" = some false
    ∧ parse_token_and_consent_from_pairs [("consent", "\u00A0false")]
      = { token := none, consent := some false } := by
  exact ⟨by decide, by decide⟩

/-- Shared restatement of the parser characterization for use in other
proofs. -/
theorem parse_pairs_eq_spec (pairs : List (String × String)) :
    parse_token_and_consent_from_pairs pairs =
      { token := spec_first_token pairs, consent := spec_last_consent pairs } := by
  have h := foldl_accumulate_eq pairs {}
  simpa [parse_token_and_consent_from_pairs] using h

/-- The URL extractor in terms of the spec-side field characterizations. -/
theorem extract_payload_eq (query frag : List (String × String)) :
    extract_payload_from_url query (some frag) =
      ((spec_first_token query).or (spec_first_token frag)).map
        (fun t => { token := t,
                    consent := (spec_last_consent query).or (spec_last_consent frag) }) := by
  simp [extract_payload_from_url, parse_pairs_eq_spec]

/-- C5: extracting from a URL, the token is the query's token when the query
yields one and otherwise the fragment's token; the consent is the query's
consent when the query yields one, even when the fragment carries a
different value; and when neither the query nor the fragment yields a token
the manual-paste flow fails with a `Communication` error. -/
theorem url_extraction_precedence (query frag : List (String × String)) :
    ((extract_payload_from_url query (some frag)).map CallbackPayload.token
        = (spec_first_token query).or (spec_first_token frag))
    ∧ (∀ p, extract_payload_from_url query (some frag) = some p →
        p.consent = (spec_last_consent query).or (spec_last_consent frag))
    ∧ (spec_first_token query = none → spec_first_token frag = none →
        payload_from_redirect_input query (some frag) =
          .error (.Communication "Unable to extract token from redirected URL")) := by
  refine ⟨?_, ?_, ?_⟩
  · rw [extract_payload_eq]
    cases htok : (spec_first_token query).or (spec_first_token frag) with
    | none => simp
    | some t => simp
  · intro p hp
    rw [extract_payload_eq] at hp
    cases htok : (spec_first_token query).or (spec_first_token frag) with
    | none => rw [htok] at hp; simp at hp
    | some t =>
      rw [htok] at hp
      simp only [Option.map_some', Option.some.injEq] at hp
      rw [← hp]
  · intro h1 h2
    unfold payload_from_redirect_input
    rw [extract_payload_eq, h1, h2]
    simp

/-- C8: the bool decoder maps a non-null cell to `true` exactly when its
(Unicode) upper-casing is `1` or `TRUE`, to `false` exactly when its
upper-casing is `0` or `FALSE`, and to a `Decode` error otherwise. -/
theorem bool_decoder_table (s : String) :
    (bool_try_decode (some s) = .ok true
        ↔ (rust_to_uppercase s = "1" ∨ rust_to_uppercase s = "TRUE"))
    ∧ (bool_try_decode (some s) = .ok false
        ↔ (rust_to_uppercase s = "0" ∨ rust_to_uppercase s = "FALSE"))
    ∧ (¬ (rust_to_uppercase s = "1" ∨ rust_to_uppercase s = "TRUE"
          ∨ rust_to_uppercase s = "0" ∨ rust_to_uppercase s = "FALSE") →
        bool_try_decode (some s) = .error (.Decode (s!"\x27{s}\x27 is not bool"))) := by
  refine ⟨⟨?_, ?_⟩, ⟨?_, ?_⟩, ?_⟩
  · intro h
    simp only [bool_try_decode, rust_unwrap] at h
    split at h
    · exact Or.inl (by assumption)
    · exact Or.inr (by assumption)
    · exact absurd h (by simp)
    · exact absurd h (by simp)
    · exact absurd h (by simp)
  · intro h
    rcases h with h | h <;> simp [bool_try_decode, rust_unwrap, h]
  · intro h
    simp only [bool_try_decode, rust_unwrap] at h
    split at h
    · exact absurd h (by simp)
    · exact absurd h (by simp)
    · exact Or.inl (by assumption)
    · exact Or.inr (by assumption)
    · exact absurd h (by simp)
  · intro h
    rcases h with h | h <;> simp [bool_try_decode, rust_unwrap, h]
  · intro hn
    simp only [bool_try_decode, rust_unwrap]
    split
    · exact absurd (Or.inl (by assumption)) hn
    · exact absurd (Or.inr (Or.inl (by assumption))) hn
    · exact absurd (Or.inr (Or.inr (Or.inl (by assumption)))) hn
    · exact absurd (Or.inr (Or.inr (Or.inr (by assumption)))) hn
    · rfl

/-- C8 witness: the concrete decoder table of the spec, an input that
errors, and a Unicode input (`fal` + long s `U+017F` + `e`, whose
upper-casing is `FALSE`) that decodes to false. -/
theorem bool_decoder_table_witness :
    bool_try_decode (some "1") = .ok true
    ∧ bool_try_decode (some "true") = .ok true
    ∧ bool_try_decode (some "TRUE") = .ok true
    ∧ bool_try_decode (some "True") = .ok true
    ∧ bool_try_decode (some "0") = .ok false
    ∧ bool_try_decode (some "false") = .ok false
    ∧ bool_try_decode (some "FALSE") = .ok false
    ∧ bool_try_decode (some "False") = .ok false
    ∧ bool_try_decode (some "fal\u017Fe") = .ok false
    ∧ bool_try_decode (some "yes") = .error (.Decode "\x27yes\x27 is not bool") :=
  ⟨(bool_decoder_table "1").1.mpr (by decide),
   (bool_decoder_table "true").1.mpr (by decide),
   (bool_decoder_table "TRUE").1.mpr (by decide),
   (bool_decoder_table "True").1.mpr (by decide),
   (bool_decoder_table "0").2.1.mpr (by decide),
   (bool_decoder_table "false").2.1.mpr (by decide),
   (bool_decoder_table "FALSE").2.1.mpr (by decide),
   (bool_decoder_table "False").2.1.mpr (by decide),
   (bool_decoder_table "fal\u017Fe").2.1.mpr (by decide),
   (bool_decoder_table "yes").2.2 (by decide)⟩

/-- C4: the envelope `{success:false, code:"390112", data:null}` parses
successfully (null data is a valid `Option` payload) and executor creation
fails with `SessionExpired` — the 390112 check runs before the `success`
check, so the outcome is neither a JSON error nor `Communication`. -/
theorem session_expired_outcome :
    (snowflake_response_from_json session_expired_envelope).map
        query_executor_create_step
      = .ok (.failure .SessionExpired) := by
  rfl

/-- C7 counterexample: an in-progress envelope whose `data` payload is null
makes executor creation fail with a `Json` error, not with
`NoPollingUrlAsyncQuery`. -/
theorem in_progress_null_data_yields_json_error :
    (snowflake_response_from_json in_progress_null_data_envelope).map
        query_executor_create_step
      = .ok (.failure (.Json "missing data field in async query response" ""))
    ∧ Error.Json "missing data field in async query response" ""
      ≠ Error.NoPollingUrlAsyncQuery := by
  exact ⟨rfl, by decide⟩

/-- C7 (amended): whenever the envelope carries an in-progress code and its
data payload is present but `getResultUrl` is absent, executor creation
fails with `NoPollingUrlAsyncQuery`; an absent data payload instead fails
with a `Json` error. -/
theorem no_polling_url_async_query (r : SnowflakeResponse) (d : RawQueryResponse)
    (hcode : r.code = some QUERY_IN_PROGRESS_CODE
      ∨ r.code = some QUERY_IN_PROGRESS_ASYNC_CODE)
    (hdata : r.data = some d) (hurl : d.get_result_url = none) :
    query_executor_create_step r = .failure .NoPollingUrlAsyncQuery := by
  have hcond : r.code = some QUERY_IN_PROGRESS_ASYNC_CODE
      ∨ r.code = some QUERY_IN_PROGRESS_CODE := by
    rcases hcode with h | h
    · exact Or.inr h
    · exact Or.inl h
  unfold query_executor_create_step
  rw [if_pos hcond, hdata]
  simp [hurl]

/-- C7 witness: a concrete in-progress envelope with data present and no
polling URL. -/
theorem no_polling_url_async_query_witness :
    query_executor_create_step sample_in_progress_response
      = .failure .NoPollingUrlAsyncQuery :=
  no_polling_url_async_query sample_in_progress_response
    sample_data_without_result_url (Or.inl rfl) rfl rfl

/-- Inversion of a concrete `Decode` error. -/
theorem error_decode_inv {α : Type} {msg : String} {e : Error}
    (h : (Except.error (Error.Decode msg) : Except Error α) = .error e) :
    ∃ m, e = .Decode m := by
  injection h with h2
  exact ⟨msg, h2.symm⟩

/-- In-bounds `Vec` indexing yields a value. -/
theorem vec_index_lt {α : Type} (l : List α) (i : Nat) (h : i < l.length) :
    ∃ a, vec_index l i = .value a := by
  unfold vec_index
  rw [List.getElem?_eq_getElem h]
  exact ⟨_, rfl⟩

/-- C3 counterexample: `SnowflakeRow::at` with an out-of-bounds index panics
(plain `Vec` indexing), so `at` is not total for every index. -/
theorem at_out_of_bounds_panics :
    SnowflakeRow.atIdx { row := [], column_types := [], column_indices := [] }
        0 .stringT
      = .panicked "index out of bounds" := rfl

/-- C3 (amended): `get` never panics when every map entry points inside both
vectors, `at` never panics for an in-bounds index, and every decoding error
is a `Decode` error (unknown column name, null non-optional cell, and
unparsable cells included) — but `at` with an out-of-bounds index (or `get`
through a map entry pointing out of bounds) panics. -/
theorem row_get_at_total (r : SnowflakeRow) (name : String) (i : Nat) (t : DTarget) :
    (r.wellIndexed → ∃ res, r.get name t = .value res)
    ∧ (i < r.column_types.length → i < r.row.length →
        ∃ res, r.atIdx i t = .value res)
    ∧ (∀ (cell : Option String) (ty : SnowflakeColumnType) (e : Error),
        try_decode t cell ty = .error e → ∃ msg, e = .Decode msg) := by
  refine ⟨?_, ?_, ?_⟩
  · intro hw
    unfold SnowflakeRow.get
    cases hidx : assoc_get r.column_indices (ascii_upper name) with
    | none => exact ⟨_, rfl⟩
    | some idx =>
      obtain ⟨p, hfind, hp2⟩ := Option.map_eq_some'.mp hidx
      have hmem : p ∈ r.column_indices := List.mem_of_find?_eq_some hfind
      obtain ⟨h1, h2⟩ := hw p hmem
      obtain ⟨ty, hty⟩ := vec_index_lt r.column_types idx (hp2 ▸ h1)
      obtain ⟨cell, hcell⟩ := vec_index_lt r.row idx (hp2 ▸ h2)
      simp only [hty, hcell]
      exact ⟨_, rfl⟩
  · intro h1 h2
    unfold SnowflakeRow.atIdx
    obtain ⟨ty, hty⟩ := vec_index_lt r.column_types i h1
    obtain ⟨cell, hcell⟩ := vec_index_lt r.row i h2
    simp only [hty, hcell]
    exact ⟨_, rfl⟩
  · clear i name
    induction t with
    | u64T =>
      intro cell ty e h
      cases cell with
      | none =>
        simp only [try_decode, rust_unwrap, Except.bind] at h
        exact error_decode_inv h
      | some v =>
        simp only [try_decode, rust_unwrap, Except.bind] at h
        cases hp : rust_parse_unsigned u64_max v with
        | none =>
          simp only [hp] at h
          exact error_decode_inv h
        | some n =>
          simp only [hp] at h
          exact absurd h (by simp)
    | i64T =>
      intro cell ty e h
      cases cell with
      | none =>
        simp only [try_decode, rust_unwrap, Except.bind] at h
        exact error_decode_inv h
      | some v =>
        simp only [try_decode, rust_unwrap, Except.bind] at h
        cases hp : rust_parse_signed i64_min i64_max v with
        | none =>
          simp only [hp] at h
          exact error_decode_inv h
        | some n =>
          simp only [hp] at h
          exact absurd h (by simp)
    | i32T =>
      intro cell ty e h
      cases cell with
      | none =>
        simp only [try_decode, rust_unwrap, Except.bind] at h
        exact error_decode_inv h
      | some v =>
        simp only [try_decode, rust_unwrap, Except.bind] at h
        cases hp : rust_parse_signed i32_min i32_max v with
        | none =>
          simp only [hp] at h
          exact error_decode_inv h
        | some n =>
          simp only [hp] at h
          exact absurd h (by simp)
    | i8T =>
      intro cell ty e h
      cases cell with
      | none =>
        simp only [try_decode, rust_unwrap, Except.bind] at h
        exact error_decode_inv h
      | some v =>
        simp only [try_decode, rust_unwrap, Except.bind] at h
        cases hp : rust_parse_signed i8_min i8_max v with
        | none =>
          simp only [hp] at h
          exact error_decode_inv h
        | some n =>
          simp only [hp] at h
          exact absurd h (by simp)
    | stringT =>
      intro cell ty e h
      cases cell with
      | none =>
        simp only [try_decode, rust_unwrap, Except.map] at h
        exact error_decode_inv h
      | some v => exact absurd h (by simp [try_decode, rust_unwrap, Except.map])
    | boolT =>
      intro cell ty e h
      cases cell with
      | none =>
        simp only [try_decode, bool_try_decode, rust_unwrap, Except.map] at h
        exact error_decode_inv h
      | some v =>
        simp only [try_decode, bool_try_decode, rust_unwrap] at h
        split at h
        · exact absurd h (by simp [Except.map])
        · exact absurd h (by simp [Except.map])
        · exact absurd h (by simp [Except.map])
        · exact absurd h (by simp [Except.map])
        · simp only [Except.map] at h
          exact error_decode_inv h
    | optionT t ih =>
      intro cell ty e h
      cases cell with
      | none => exact absurd h (by simp [try_decode])
      | some v =>
        simp only [try_decode] at h
        cases hin : try_decode t (some v) ty with
        | ok a => rw [hin] at h; exact absurd h (by simp [Except.map])
        | error e2 =>
          rw [hin] at h
          simp only [Except.map] at h
          obtain ⟨msg, hmsg⟩ := ih (some v) ty e2 hin
          injection h with h3
          exact ⟨msg, h3 ▸ hmsg⟩

/-- C3 witness: a well-formed one-column row decodes without panicking, and
a concrete decode error is a `Decode` error. -/
theorem row_get_at_total_witness :
    (∃ res, SnowflakeRow.get sample_row "a" .boolT = .value res)
    ∧ (∃ res, SnowflakeRow.atIdx sample_row 0 .boolT = .value res)
    ∧ (∃ msg, Error.Decode "\x27zot\x27 is not bool" = .Decode msg) := by
  refine ⟨(row_get_at_total sample_row "a" 0 .boolT).1 (by decide),
          (row_get_at_total sample_row "a" 0 .boolT).2.1 (by decide) (by decide),
          (row_get_at_total sample_row "a" 0 .boolT).2.2 (some "zot")
            { snowflake_type := "boolean", nullable := true, length := none,
              precision := none, scale := none }
            (.Decode "\x27zot\x27 is not bool") (by rfl)⟩

/-- The channel value after one request: a request carrying a payload
replaces the watch channel value, any other request leaves it unchanged. -/
theorem handler_channel (expected_origin : String) (application : Option String)
    (st : ListenerState) (req : ListenerRequest) :
    ((handler expected_origin application st req).1).channel
      = (request_payload req).or st.channel := by
  cases req with
  | optionsReq origin rh =>
    simp only [handler, request_payload]
    cases horig : origin.filter (fun o => origin_allowed_value o expected_origin) with
    | none => simp
    | some ao => simp
  | getReq q =>
    simp only [handler, request_payload]
    cases hp : extract_payload_from_query q with
    | none => simp
    | some p => simp
  | postReq b =>
    simp only [handler, request_payload]
    cases hp : extract_payload_from_body b with
    | none => simp
    | some p => simp
  | otherReq => simp [handler, request_payload]

/-- `getLast?` of a cons as an `Option.or`. -/
theorem getLast?_cons_or {α : Type} (a : α) (l : List α) :
    (a :: l).getLast? = l.getLast?.or (some a) := by
  cases l with
  | nil => simp
  | cons b t =>
    rw [List.getLast?_cons_cons]
    have hs : (b :: t).getLast?.isSome := by
      rw [List.getLast?_isSome]
      simp
    exact (Option.or_of_isSome hs).symm

/-- C1 (amended): the watch channel keeps the latest published payload, not
the first — a GET/POST from which a payload is extracted replaces the
channel value (later requests with different tokens do overwrite), and a
request without a payload leaves it unchanged; after any request sequence
the channel holds the last published payload, or the initial value if
nothing was published. -/
theorem watch_channel_latest_wins (expected_origin : String)
    (application : Option String) (st : ListenerState) (req : ListenerRequest)
    (reqs : List ListenerRequest) :
    (((handler expected_origin application st req).1).channel
        = (request_payload req).or st.channel)
    ∧ ((run_requests expected_origin application st reqs).channel
        = ((published_payloads reqs).getLast?).or st.channel) := by
  refine ⟨handler_channel expected_origin application st req, ?_⟩
  induction reqs generalizing st with
  | nil => simp [run_requests, published_payloads]
  | cons r rest ih =>
    rw [run_requests, ih]
    rw [handler_channel]
    unfold published_payloads
    rw [List.filterMap_cons]
    cases hp : request_payload r with
    | none => simp
    | some p =>
      rw [getLast?_cons_or, Option.or_assoc]

/-- C1 counterexample: two successive GETs carrying different tokens — after
the second request the channel no longer holds the first published payload,
so a later request does overwrite an already-published payload. -/
theorem watch_channel_overwritten :
    (run_requests "http://127.0.0.1:18273" none
        { validated_origin := none, channel := none }
        [ListenerRequest.getReq (some [("token", "first")])]).channel
      = some { token := "first", consent := none }
    ∧ (run_requests "http://127.0.0.1:18273" none
        { validated_origin := none, channel := none }
        [ListenerRequest.getReq (some [("token", "first")]),
         ListenerRequest.getReq (some [("token", "second")])]).channel
      = some { token := "second", consent := none }
    ∧ ({ token := "second", consent := none } : CallbackPayload)
      ≠ { token := "first", consent := none } := by
  exact ⟨by decide, by decide, by decide⟩

/-- The HTML close-window page is never a consent JSON body (their first
characters differ). -/
theorem html_ne_consent_json (application : Option String) (b : Bool) :
    html_close_body application ≠ consent_json_body b := by
  intro h
  have hd := congrArg String.data h
  rw [html_close_body] at hd
  simp only [String.data_append] at hd
  obtain ⟨tl, hf⟩ : ∃ tl, html_front.data = '<' :: tl := ⟨_, rfl⟩
  rw [hf] at hd
  have hhead := congrArg List.head? hd
  simp only [List.cons_append, List.head?_cons] at hhead
  have hj : (consent_json_body b).data.head? = some '\x7b' := by
    cases b <;> rfl
  rw [hj] at hhead
  exact absurd hhead (by decide)

/-- C9: in the 200-response builder, the no-payload rule takes precedence
over the CORS rule — with no payload the response is the plain-text
`no token provided` body with no `Access-Control-Allow-Origin` header even
when a validated origin is stored; the `{"consent": b}` JSON body is
produced exactly when both a payload was extracted and a validated origin
is stored. -/
theorem no_payload_precedence (stored_origin application : Option String)
    (payload : Option CallbackPayload) :
    (ok_callback_response none stored_origin application = no_token_response
      ∧ header_lookup (ok_callback_response none stored_origin application)
          "Access-Control-Allow-Origin" = none
      ∧ no_token_response.body = "no token provided")
    ∧ ((∃ b, (ok_callback_response payload stored_origin application).body
          = consent_json_body b)
        ↔ payload.isSome ∧ stored_origin.isSome) := by
  refine ⟨⟨rfl, rfl, rfl⟩, ?_, ?_⟩
  · rintro ⟨b, hb⟩
    cases payload with
    | none =>
      have hb2 : ("no token provided" : String) = consent_json_body b := hb
      exact absurd hb2 (by cases b <;> decide)
    | some p =>
      cases stored_origin with
      | none =>
        simp only [ok_callback_response, Option.isSome_none, Bool.false_eq_true,
          if_false, ite_false] at hb
        exact absurd hb (html_ne_consent_json application b)
      | some o => exact ⟨rfl, rfl⟩
  · rintro ⟨hp, hs⟩
    cases payload with
    | none => simp at hp
    | some p =>
      cases stored_origin with
      | none => simp at hs
      | some o => exact ⟨p.consent.getD true, rfl⟩

/-- C9 witness: with a payload and a stored validated origin, the body is a
consent JSON body. -/
theorem no_payload_precedence_witness :
    ∃ b, (ok_callback_response (some { token := "tok", consent := some false })
        (some "http://127.0.0.1:1") none).body = consent_json_body b :=
  (no_payload_precedence (some "http://127.0.0.1:1") none
      (some { token := "tok", consent := some false })).2.mpr (by decide)

/-- Setting an element shifts `countP` by the difference of the old and new
elements. -/
theorem countP_set_shift {α : Type} (p : α → Bool) (l : List α) (i : Nat)
    (a b : α) (h : l[i]? = some a) :
    (l.set i b).countP p + (if p a then 1 else 0)
      = l.countP p + (if p b then 1 else 0) := by
  induction l generalizing i with
  | nil => simp at h
  | cons c t ih =>
    cases i with
    | zero =>
      simp only [List.getElem?_cons_zero, Option.some.injEq] at h
      subst h
      simp only [List.set_cons_zero, List.countP_cons]
      by_cases hpc : p c <;> by_cases hpb : p b <;> simp [hpc, hpb]
    | succ n =>
      simp only [List.getElem?_cons_succ] at h
      simp only [List.set_cons_succ, List.countP_cons]
      have hih := ih n h
      by_cases hpa : p a <;> by_cases hpb : p b <;>
        simp [hpa, hpb] at hih ⊢ <;> omega

/-- A position holding a value is in bounds. -/
theorem lt_length_of_getElem?_some {α : Type} {l : List α} {i : Nat} {a : α}
    (h : l[i]? = some a) : i < l.length := by
  by_contra hc
  rw [List.getElem?_eq_none (Nat.le_of_not_lt hc)] at h
  exact absurd h (by simp)

/-- One fan-out step preserves the semaphore accounting: in-flight downloads
plus free permits is constant. -/
theorem fetch_step_inv (spawned : List RawQueryResponseChunk)
    (download : RawQueryResponseChunk → ChunkRows) (s s2 : FetchAllState)
    (a : FetchAction) (permits : Nat)
    (hstep : fetch_step spawned download s a = some s2)
    (hinv : in_flight s + s.sem = permits) :
    in_flight s2 + s2.sem = permits := by
  cases a with
  | acquire i =>
    simp only [fetch_step] at hstep
    split at hstep
    · rename_i hts
      split at hstep
      · rename_i hsem
        injection hstep with hs2
        subst hs2
        have hc := countP_set_shift phase_is_running s.tasks i .queued .running hts
        simp only [phase_is_running] at hc
        simp only [in_flight] at hinv ⊢
        simp at hc
        omega
      · simp at hstep
    · simp at hstep
  | finish i =>
    simp only [fetch_step] at hstep
    split at hstep
    · rename_i chunk hts hsp
      injection hstep with hs2
      subst hs2
      have hc := countP_set_shift phase_is_running s.tasks i .running
        (.done (download chunk)) hts
      simp only [phase_is_running] at hc
      simp only [in_flight] at hinv ⊢
      simp at hc
      omega
    · simp at hstep

/-- Running a schedule preserves the semaphore accounting. -/
theorem fetch_run_inv (spawned : List RawQueryResponseChunk)
    (download : RawQueryResponseChunk → ChunkRows) (actions : List FetchAction) :
    ∀ (s s2 : FetchAllState) (permits : Nat),
      fetch_run spawned download s actions = some s2 →
      in_flight s + s.sem = permits → in_flight s2 + s2.sem = permits := by
  induction actions with
  | nil =>
    intro s s2 permits h hinv
    unfold fetch_run at h
    injection h with h2
    exact h2 ▸ hinv
  | cons a rest ih =>
    intro s s2 permits h hinv
    unfold fetch_run at h
    cases hstep : fetch_step spawned download s a with
    | none => rw [hstep] at h; exact absurd h (by simp)
    | some smid =>
      rw [hstep] at h
      exact ih smid s2 permits h
        (fetch_step_inv spawned download s smid a permits hstep hinv)

/-- One fan-out step preserves the task count. -/
theorem fetch_step_length (spawned : List RawQueryResponseChunk)
    (download : RawQueryResponseChunk → ChunkRows) (s s2 : FetchAllState)
    (a : FetchAction) (hstep : fetch_step spawned download s a = some s2) :
    s2.tasks.length = s.tasks.length := by
  cases a with
  | acquire i =>
    simp only [fetch_step] at hstep
    split at hstep
    · split at hstep
      · injection hstep with hs2
        subst hs2
        simp
      · simp at hstep
    · simp at hstep
  | finish i =>
    simp only [fetch_step] at hstep
    split at hstep
    · injection hstep with hs2
      subst hs2
      simp
    · simp at hstep

/-- Running a schedule preserves the task count. -/
theorem fetch_run_length (spawned : List RawQueryResponseChunk)
    (download : RawQueryResponseChunk → ChunkRows) (actions : List FetchAction) :
    ∀ (s s2 : FetchAllState),
      fetch_run spawned download s actions = some s2 →
      s2.tasks.length = s.tasks.length := by
  induction actions with
  | nil =>
    intro s s2 h
    unfold fetch_run at h
    injection h with h2
    rw [h2]
  | cons a rest ih =>
    intro s s2 h
    unfold fetch_run at h
    cases hstep : fetch_step spawned download s a with
    | none => rw [hstep] at h; exact absurd h (by simp)
    | some smid =>
      rw [hstep] at h
      rw [ih smid s2 h, fetch_step_length spawned download s smid a hstep]

/-- One fan-out step preserves the result invariant: every finished task
holds exactly the download of its own chunk. -/
theorem fetch_step_results (spawned : List RawQueryResponseChunk)
    (download : RawQueryResponseChunk → ChunkRows) (s s2 : FetchAllState)
    (a : FetchAction) (hstep : fetch_step spawned download s a = some s2)
    (hres : ∀ (i : Nat) (r : ChunkRows), s.tasks[i]? = some (TaskPhase.done r) →
      Option.map download spawned[i]? = some r) :
    ∀ (i : Nat) (r : ChunkRows), s2.tasks[i]? = some (TaskPhase.done r) →
      Option.map download spawned[i]? = some r := by
  cases a with
  | acquire j =>
    simp only [fetch_step] at hstep
    split at hstep
    · rename_i hts
      split at hstep
      · injection hstep with hs2
        subst hs2
        intro i r hi
        by_cases hij : j = i
        · subst hij
          rw [List.getElem?_set_self (lt_length_of_getElem?_some hts)] at hi
          simp at hi
        · rw [List.getElem?_set_ne hij] at hi
          exact hres i r hi
      · simp at hstep
    · simp at hstep
  | finish j =>
    simp only [fetch_step] at hstep
    split at hstep
    · rename_i chunk hts hsp
      injection hstep with hs2
      subst hs2
      intro i r hi
      by_cases hij : j = i
      · subst hij
        rw [List.getElem?_set_self (lt_length_of_getElem?_some hts)] at hi
        injection hi with h3
        injection h3 with h4
        rw [hsp]
        simp [h4]
      · rw [List.getElem?_set_ne hij] at hi
        exact hres i r hi
    · simp at hstep

/-- Running a schedule preserves the result invariant. -/
theorem fetch_run_results (spawned : List RawQueryResponseChunk)
    (download : RawQueryResponseChunk → ChunkRows) (actions : List FetchAction) :
    ∀ (s s2 : FetchAllState),
      fetch_run spawned download s actions = some s2 →
      (∀ (i : Nat) (r : ChunkRows), s.tasks[i]? = some (TaskPhase.done r) →
        Option.map download spawned[i]? = some r) →
      ∀ (i : Nat) (r : ChunkRows), s2.tasks[i]? = some (TaskPhase.done r) →
        Option.map download spawned[i]? = some r := by
  induction actions with
  | nil =>
    intro s s2 h hres
    unfold fetch_run at h
    injection h with h2
    subst h2
    exact hres
  | cons a rest ih =>
    intro s s2 h hres
    unfold fetch_run at h
    cases hstep : fetch_step spawned download s a with
    | none => rw [hstep] at h; exact absurd h (by simp)
    | some smid =>
      rw [hstep] at h
      exact ih smid s2 h
        (fetch_step_results spawned download s smid a hstep hres)

/-- A task that was never granted a permit stays queued. -/
theorem fetch_run_queued_stays (spawned : List RawQueryResponseChunk)
    (download : RawQueryResponseChunk → ChunkRows) (actions : List FetchAction) :
    ∀ (s s2 : FetchAllState) (i : Nat),
      fetch_run spawned download s actions = some s2 →
      s.tasks[i]? = some .queued → FetchAction.acquire i ∉ actions →
      s2.tasks[i]? = some .queued := by
  induction actions with
  | nil =>
    intro s s2 i h hq hn
    unfold fetch_run at h
    injection h with h2
    exact h2 ▸ hq
  | cons a rest ih =>
    intro s s2 i h hq hn
    unfold fetch_run at h
    cases hstep : fetch_step spawned download s a with
    | none => rw [hstep] at h; exact absurd h (by simp)
    | some smid =>
      rw [hstep] at h
      have hn_rest : FetchAction.acquire i ∉ rest :=
        fun hm => hn (List.mem_cons_of_mem a hm)
      have hna : a ≠ FetchAction.acquire i :=
        fun he => hn (he ▸ List.mem_cons_self a rest)
      refine ih smid s2 i h ?_ hn_rest
      cases a with
      | acquire j =>
        have hji : j ≠ i := fun he => hna (by rw [he])
        simp only [fetch_step] at hstep
        split at hstep
        · split at hstep
          · injection hstep with hs2
            subst hs2
            rw [List.getElem?_set_ne hji]
            exact hq
          · simp at hstep
        · simp at hstep
      | finish j =>
        simp only [fetch_step] at hstep
        split at hstep
        · rename_i chunk hts hsp
          injection hstep with hs2
          subst hs2
          by_cases hji : j = i
          · subst hji
            rw [hq] at hts
            simp at hts
          · rw [List.getElem?_set_ne hji]
            exact hq
        · simp at hstep

/-- No task of the initial state is running. -/
theorem fetch_init_in_flight (n permits : Nat) :
    in_flight (fetch_init n permits) = 0 := by
  unfold in_flight fetch_init
  rw [List.countP_eq_zero]
  intro ph hph
  rw [List.eq_of_mem_replicate hph]
  simp [phase_is_running]

/-- No task of the initial state is done. -/
theorem fetch_init_no_done (n permits i : Nat) (r : ChunkRows) :
    (fetch_init n permits).tasks[i]? = some (.done r) → False := by
  intro h
  unfold fetch_init at h
  have : TaskPhase.queued = TaskPhase.done r := by
    have hmem := List.getElem?_mem h
    exact (List.eq_of_mem_replicate hmem).symm ▸ rfl
  simp at this

/-- C2: under `fetch_all_with_limit`, in every state reachable by any
schedule the in-flight download count plus the free permits equals the
semaphore's permit count; hence at most `max(1, k)` downloads are ever in
flight; the semaphore holds exactly `clamp(n, 1, max(1, k))` permits; and a
task can only be running or finished after an `acquire` granted it a permit
(every download acquires a permit before its HTTP request). -/
theorem fetch_all_with_limit_concurrency_cap
    (chunks : List RawQueryResponseChunk)
    (download : RawQueryResponseChunk → ChunkRows) (k : Nat)
    (actions : List FetchAction) (s : FetchAllState)
    (hrun : fetch_run (spawn_order chunks) download
        (fetch_init chunks.length (fetch_semaphore_permits chunks.length k))
        actions = some s) :
    in_flight s + s.sem = fetch_semaphore_permits chunks.length k
    ∧ in_flight s ≤ max 1 k
    ∧ fetch_semaphore_permits chunks.length k
        = rust_clamp chunks.length 1 (max 1 k)
    ∧ (∀ (i : Nat), (s.tasks[i]? = some TaskPhase.running
          ∨ ∃ r, s.tasks[i]? = some (TaskPhase.done r)) →
        FetchAction.acquire i ∈ actions) := by
  have hinv0 : in_flight (fetch_init chunks.length
      (fetch_semaphore_permits chunks.length k))
      + (fetch_init chunks.length (fetch_semaphore_permits chunks.length k)).sem
      = fetch_semaphore_permits chunks.length k := by
    rw [fetch_init_in_flight]
    simp [fetch_init]
  have hinv := fetch_run_inv (spawn_order chunks) download actions _ s
    (fetch_semaphore_permits chunks.length k) hrun hinv0
  refine ⟨hinv, ?_, ?_, ?_⟩
  · have hperm : fetch_semaphore_permits chunks.length k ≤ max 1 k := by
      unfold fetch_semaphore_permits rust_clamp
      omega
    omega
  · unfold fetch_semaphore_permits rust_clamp
    omega
  · intro i hi
    by_contra hnin
    by_cases hlt : i < chunks.length
    · have hq0 : (fetch_init chunks.length
          (fetch_semaphore_permits chunks.length k)).tasks[i]? = some .queued := by
        unfold fetch_init
        rw [List.getElem?_replicate]
        simp [hlt]
      have hq := fetch_run_queued_stays (spawn_order chunks) download actions _ s i
        hrun hq0 hnin
      rcases hi with hr | ⟨r, hr⟩ <;> rw [hq] at hr <;> simp at hr
    · have hlen := fetch_run_length (spawn_order chunks) download actions _ s hrun
      have hnone : s.tasks[i]? = none := by
        apply List.getElem?_eq_none
        rw [hlen]
        unfold fetch_init
        simp
        omega
      rcases hi with hr | ⟨r, hr⟩ <;> rw [hnone] at hr <;> simp at hr

/-- A final state computed by the sample schedule. -/
def sample_final_state : FetchAllState :=
  { sem := 1,
    tasks := [.done [[some "https://chunks.example/1"]],
              .done [[some "https://chunks.example/0"]]] }

/-- C2 witness: the two sample chunks under limit 1 run to completion with
the accounting intact. -/
theorem fetch_all_with_limit_concurrency_cap_witness :
    in_flight sample_final_state + sample_final_state.sem
      = fetch_semaphore_permits sample_chunks.length 1
    ∧ in_flight sample_final_state ≤ max 1 1 := by
  have h := fetch_all_with_limit_concurrency_cap sample_chunks sample_download 1
    sample_actions sample_final_state (by decide)
  exact ⟨h.1, h.2.1⟩

/-- C10: for any complete schedule (every task finished, in any completion
order), the assembled row list is the initial rowset's rows followed by the
chunk rows in spawn order — the reverse of the server-provided chunk list —
so the result is a deterministic function of the response data and the
download collaborator, independent of which download completes first. -/
theorem fetch_all_result_deterministic
    (chunks : List RawQueryResponseChunk)
    (download : RawQueryResponseChunk → ChunkRows) (k : Nat)
    (column_types : List SnowflakeColumnType)
    (column_indices : List (String × Nat)) (initial_row_set : List RawRow)
    (actions : List FetchAction) (s : FetchAllState)
    (hrun : fetch_run (spawn_order chunks) download
        (fetch_init chunks.length (fetch_semaphore_permits chunks.length k))
        actions = some s)
    (hdone : s.tasks.all phase_is_done = true) :
    fetch_all_rows column_types column_indices initial_row_set s
      = (initial_row_set ++ ((spawn_order chunks).map download).flatten).map
          (convert_row column_types column_indices) := by
  have hlen : s.tasks.length = (spawn_order chunks).length := by
    rw [fetch_run_length (spawn_order chunks) download actions _ s hrun]
    unfold fetch_init spawn_order
    simp
  have hres := fetch_run_results (spawn_order chunks) download actions _ s hrun
    (fun i r h => absurd h (fun h2 => fetch_init_no_done chunks.length _ i r h2))
  have hmap : s.tasks.map task_rows = (spawn_order chunks).map download := by
    apply List.ext_getElem?
    intro n
    rw [List.getElem?_map, List.getElem?_map]
    by_cases hn : n < s.tasks.length
    · obtain ⟨ph, hph⟩ : ∃ ph, s.tasks[n]? = some ph :=
        ⟨_, List.getElem?_eq_getElem hn⟩
      have hmem := List.getElem?_mem hph
      have hd := List.all_eq_true.mp hdone ph hmem
      cases ph with
      | queued => simp [phase_is_done] at hd
      | running => simp [phase_is_done] at hd
      | done r =>
        rw [hph, hres n r hph]
        simp [task_rows]
    · have h1 : s.tasks[n]? = none :=
        List.getElem?_eq_none (Nat.le_of_not_lt hn)
      have h2 : (spawn_order chunks)[n]? = none := by
        apply List.getElem?_eq_none
        omega
      rw [h1, h2]
      rfl
  unfold fetch_all_rows
  rw [hmap]

/-- C10 witness: the sample schedule assembles the initial rowset followed
by the reversed chunk list's rows. -/
theorem fetch_all_result_deterministic_witness :
    fetch_all_rows [] [] [[some "r0"]] sample_final_state
      = ([[some "r0"]] ++ ((spawn_order sample_chunks).map sample_download).flatten).map
          (convert_row [] []) :=
  fetch_all_result_deterministic sample_chunks sample_download 1 [] []
    [[some "r0"]] sample_actions sample_final_state (by decide) (by decide)

/-- C5 witness: concrete query/fragment instances exercising the precedence
and the failure case. -/
theorem url_extraction_precedence_witness :
    ((extract_payload_from_url [("token", "query_token"), ("consent", "false")]
        (some [("token", "fragment_token"), ("consent", "true")])).map
          CallbackPayload.token = some "query_token")
    ∧ payload_from_redirect_input [("other", "1")] (some [("missing", "x")])
      = .error (.Communication "Unable to extract token from redirected URL") := by
  constructor
  · rw [(url_extraction_precedence [("token", "query_token"), ("consent", "false")]
      [("token", "fragment_token"), ("consent", "true")]).1]
    decide
  · exact (url_extraction_precedence [("other", "1")] [("missing", "x")]).2.2
      (by decide) (by decide)

end Snowflake
